import Mathlib

/-!
Shallow embedding of the HyPrism manifest-backed content store:
the worlds catalog (package `worlds`, file `internal/game/` world code),
the mods catalog (package `mods`, manifest code), and the CurseForge
install orchestrator (`internal/mods/curseforge.go`).

Strings model Go strings (ASCII assumed where byte-level slicing occurs);
Go's lexicographic byte comparison of strings is modelled by Lean's
`String` order. Go slices distinguish `nil` from an empty slice (they
marshal differently to JSON), so catalog slices are modelled as
`Option (List _)`.
-/

namespace HyPrism

/-- A Go slice: `none` is the nil slice, `some l` a non-nil slice. -/
abbrev GoSlice (α : Type) := Option (List α)

/-- The elements of a Go slice (ranging over a nil slice yields nothing). -/
def GoSlice.toList {α : Type} : GoSlice α → List α
  | none => []
  | some l => l

/-- Go's `append(s, a)`: appending to a nil slice yields a non-nil slice. -/
def goAppend {α : Type} (s : GoSlice α) (a : α) : GoSlice α :=
  some (s.toList ++ [a])

/-- Result of building a slice with `var s []T` then zero or more appends:
nil exactly when nothing was appended. -/
def toGoSlice {α : Type} : List α → GoSlice α
  | [] => none
  | l => some l

/-- Struct `World` from the `worlds` package: one tracked save directory. -/
structure World where
  id : String
  name : String
  path : String
  createdAt : String
  lastPlayed : String
  sizeBytes : Int
  gameMode : String
  seed : String
  isBackup : Bool
  backupOf : String
  deriving DecidableEq

/-- Struct `WorldManifest`: the persisted worlds catalog. -/
structure WorldManifest where
  worlds : GoSlice World
  version : String
  deriving DecidableEq

/-- Result of `LoadManifest` on an absent file: empty (non-nil) list, version "1.0". -/
def emptyWorldManifest : WorldManifest :=
  { worlds := some [], version := "1.0" }

/-- Filesystem operations performed by a save routine, in order. -/
inductive FsOp where
  | mkdirAll (path : String)
  | writeFile (path : String)
  | rename (src dst : String)
  deriving DecidableEq

/-- The filesystem operations `SaveManifest` performs (both the worlds and
the mods variant have the same shape): `os.MkdirAll(filepath.Dir(path))`
followed by a direct `os.WriteFile(path, data)`. `manifestDir` stands for
`filepath.Dir(manifestPath)`. -/
def saveManifestOps (manifestDir manifestPath : String) : List FsOp :=
  [FsOp.mkdirAll manifestDir, FsOp.writeFile manifestPath]

/-- Modelled from the spec: "Persistence is a single atomic write
(write-to-temp-then-rename, or equivalent)". A trace is an atomic
replace of `finalPath` when no write targets `finalPath` directly and
some rename moves a temporary file onto `finalPath`. -/
def isAtomicReplaceWrite (ops : List FsOp) (finalPath : String) : Prop :=
  (∀ op ∈ ops, op ≠ FsOp.writeFile finalPath) ∧
    ∃ tmp, FsOp.rename tmp finalPath ∈ ops

/-- One entry of `os.ReadDir(worldsDir)` together with the filesystem
facts `ScanWorlds` queries about it: whether `level.dat` / `world.json`
exist inside it, whether `entry.Info()` succeeds, its mod time
already formatted with `time.RFC3339`, and the recursively summed
file size `calculateDirSize` would compute. -/
structure DirEntry where
  name : String
  isDir : Bool
  hasLevelDat : Bool
  hasWorldJson : Bool
  infoOk : Bool
  modTime : String
  size : Int
  deriving DecidableEq

/-- The `existingWorlds` map of `ScanWorlds`: built by inserting every
prior world keyed on its path, so on duplicate paths the last one wins. -/
def lookupExisting (ws : List World) (path : String) : Option World :=
  (ws.filter fun w => w.path == path).getLast?

/-- The body of the `ScanWorlds` loop for one directory entry:
skip non-directories, the reserved `backups` name, directories with
neither marker file, and entries whose `Info()` fails; otherwise build
the world, carrying over `Name`, `CreatedAt`, `GameMode`, `Seed` from a
prior entry with the same path when one exists. -/
def processEntry (worldsDir : String) (prior : List World) (e : DirEntry) :
    Option World :=
  if !e.isDir then none
  else if e.name == "backups" then none
  else if !(e.hasLevelDat || e.hasWorldJson) then none
  else if !e.infoOk then none
  else
    let worldPath := worldsDir ++ "/" ++ e.name
    let base : World :=
      { id := e.name, name := e.name, path := worldPath,
        createdAt := e.modTime, lastPlayed := e.modTime,
        sizeBytes := e.size, gameMode := "Survival", seed := "",
        isBackup := false, backupOf := "" }
    match lookupExisting prior worldPath with
    | some ex =>
        some { base with name := ex.name, createdAt := ex.createdAt,
                         gameMode := ex.gameMode, seed := ex.seed }
    | none => some base

/-- Lexicographic order on character lists: embeds Go's bytewise `<` on
strings (ASCII assumed, where character order coincides with byte
order). -/
def charListLt : List Char → List Char → Bool
  | _, [] => false
  | [], _ :: _ => true
  | a :: as, b :: bs =>
      if a < b then true
      else if b < a then false
      else charListLt as bs

/-- Go's `<` on strings. -/
def strLt (a b : String) : Bool :=
  charListLt a.data b.data

/-- The comparator of `ScanWorlds`'s sort:
`worlds[i].LastPlayed > worlds[j].LastPlayed`. It consults only
`LastPlayed`; ids play no part. -/
def worldLess (a b : World) : Bool :=
  strLt b.lastPlayed a.lastPlayed

/-- Modelled from the spec: the ordering Claim C6 states — `updatedAt`
(`LastPlayed`) descending, ties broken by `id` ascending. `a` may sit
before `b` exactly when `b` plays strictly earlier, or they tie and
`a`'s id is not greater. -/
def specSortKey (a b : World) : Prop :=
  strLt b.lastPlayed a.lastPlayed = true ∨
    (a.lastPlayed = b.lastPlayed ∧ strLt b.id a.id = false)

instance specSortKeyDecidable (a b : World) : Decidable (specSortKey a b) := by
  unfold specSortKey
  exact inferInstance

/-- Insert into a list sorted by `worldLess`: the element goes before
the first strictly-smaller element, hence after any element it ties
with. -/
def insertWorld (w : World) : List World → List World
  | [] => [w]
  | x :: xs => if worldLess w x then w :: x :: xs else x :: insertWorld w xs

/-- Embeds `sort.Slice(worlds, ...)` with the `LastPlayed >` comparator,
realised as a left-to-right insertion sort: elements that tie under the
comparator keep their encounter order, matching Go's insertion sort on
small slices (the comparator itself never separates ties). -/
def sortWorlds (l : List World) : List World :=
  l.foldl (fun acc w => insertWorld w acc) []

/-- The contract of Go's `sort.Slice`, which is documented as not
guaranteed to be stable: an admissible result is any permutation of the
input that is non-increasing under the comparator. The order of
elements that tie under the comparator is not determined by the
contract. -/
def sortSliceAdmissible (input output : List World) : Prop :=
  output.Perm input ∧ output.Pairwise (fun a b => worldLess b a = false)

/-- Embeds `ScanWorlds`, given the directory listing of `worldsDir` and the
previously persisted manifest (`LoadManifest`'s result; pass
`emptyWorldManifest` for an absent file). Returns the list the function
returns and the manifest it saves: the scanned list is accumulated from
`var worlds []World` (so it stays nil when no directory is valid),
sorted, stored into `manifest.Worlds` and persisted. -/
def scanWorlds (worldsDir : String) (entries : List DirEntry)
    (manifest : WorldManifest) : GoSlice World × WorldManifest :=
  let prior := manifest.worlds.toList
  let found := entries.filterMap (processEntry worldsDir prior)
  let ws := toGoSlice (sortWorlds found)
  (ws, { manifest with worlds := ws })

/-- Go's `encoding/json` marshals a nil Go slice as the JSON token `null`
and any non-nil slice as a JSON array `[...]`. This flag records
whether the persisted `worlds` field reads `null`. -/
def worldsFieldIsNullJSON (g : GoSlice World) : Bool :=
  g.isNone

/-- Embeds `calculateDirSize` over the files of a directory tree, given as
(relative path, size) pairs. -/
def sumSizes (files : List (String × Int)) : Int :=
  files.foldl (fun acc p => acc + p.2) 0

/-- Result of a backup or restore: the persisted manifest afterwards,
the relative paths of the files present at the copy destination
afterwards, and the returned value or error. -/
structure WorldsFsResult where
  manifest : WorldManifest
  destFiles : List String
  result : Except String World

/-- Embeds `BackupWorld` after `GetWorld` resolution (`found = false` models a
`GetWorld` error). `files` are the world directory's files in the order
`filepath.Walk` visits them; `copyFails = some k` models `copyDir`
failing after copying `k` of them, `none` a complete copy. `timestamp`
is `time.Now().Format("2006-01-02_15-04-05")` and `now` is
`time.Now().Format(time.RFC3339)`. On copy failure the function returns
the error without removing the partially-copied destination; it never
writes the manifest (a backup is not added to the live catalog). -/
def BackupWorld (backupsDir : String) (world : World) (found : Bool)
    (timestamp now : String) (files : List (String × Int))
    (copyFails : Option Nat) (manifest : WorldManifest) : WorldsFsResult :=
  if !found then
    { manifest := manifest, destFiles := [],
      result := Except.error ("world not found: " ++ world.id) }
  else
    let backupName := world.name ++ "_backup_" ++ timestamp
    let backupPath := backupsDir ++ "/" ++ backupName
    match copyFails with
    | some k =>
        { manifest := manifest,
          destFiles := (files.take k).map Prod.fst,
          result := Except.error "failed to create backup" }
    | none =>
        { manifest := manifest,
          destFiles := files.map Prod.fst,
          result := Except.ok
            { id := backupName, name := backupName, path := backupPath,
              createdAt := now, lastPlayed := world.lastPlayed,
              sizeBytes := sumSizes files, gameMode := world.gameMode,
              seed := world.seed, isBackup := true, backupOf := world.id } }

/-- Embeds `RestoreBackup`. `backupExists` models the initial `os.Stat` on the
backup path; `files` are the backup directory's files in walk order;
`copyFails` as in `BackupWorld`. `timestamp` is
`time.Now().Format("20060102150405")` and `now` is the RFC3339 form.
On success the restored world (hardcoded `GameMode: "Survival"`, empty
seed, name `"Restored - {backupID}"`) is appended to the manifest and
the manifest saved; on copy failure the error is returned without
removing the partial destination and without touching the manifest. -/
def RestoreBackup (worldsDir : String) (backupID : String)
    (backupExists : Bool) (files : List (String × Int))
    (timestamp now : String) (copyFails : Option Nat)
    (manifest : WorldManifest) : WorldsFsResult :=
  if !backupExists then
    { manifest := manifest, destFiles := [],
      result := Except.error ("backup not found: " ++ backupID) }
  else
    let worldID := "restored_" ++ timestamp
    let worldPath := worldsDir ++ "/" ++ worldID
    match copyFails with
    | some k =>
        { manifest := manifest,
          destFiles := (files.take k).map Prod.fst,
          result := Except.error "failed to restore backup" }
    | none =>
        let world : World :=
          { id := worldID, name := "Restored - " ++ backupID,
            path := worldPath, createdAt := now, lastPlayed := now,
            sizeBytes := sumSizes files, gameMode := "Survival",
            seed := "", isBackup := false, backupOf := "" }
        { manifest := { manifest with worlds := goAppend manifest.worlds world },
          destFiles := files.map Prod.fst,
          result := Except.ok world }

/-- The ids of the worlds catalog. -/
def worldIds (m : WorldManifest) : List String :=
  m.worlds.toList.map World.id

/-- Struct `Mod` from the `mods` package: one installed mod. -/
structure Mod where
  id : String
  name : String
  version : String
  author : String
  description : String
  downloadURL : String
  curseForgeID : Int
  enabled : Bool
  installedAt : String
  updatedAt : String
  filePath : String
  iconURL : String
  downloads : Int
  category : String
  deriving DecidableEq

/-- Struct `ModManifest`: the persisted mods catalog. -/
structure ModManifest where
  mods : GoSlice Mod
  version : String
  deriving DecidableEq

/-- Result of `LoadManifest` (mods) on an absent file. -/
def emptyModManifest : ModManifest :=
  { mods := some [], version := "1.0" }

/-- The loop of `AddMod`: replace the first entry with a matching `ID`
in place, otherwise append at the end. -/
def addModList (l : List Mod) (mod : Mod) : List Mod :=
  match l with
  | [] => [mod]
  | m :: rest =>
      if m.id == mod.id then mod :: rest else m :: addModList rest mod

/-- Embeds `AddMod`: load, replace-or-append, save. -/
def AddMod (mod : Mod) (manifest : ModManifest) : ModManifest :=
  { manifest with mods := some (addModList manifest.mods.toList mod) }

/-- Worker for `filepath.Ext` on the reversed character list: the suffix starting
at the final dot of the final path element, empty when there is none. -/
def goExtRev (acc : List Char) : List Char → String
  | [] => ""
  | c :: rest =>
      if c = '.' then String.mk (c :: acc)
      else if c = '/' then ""
      else goExtRev (c :: acc) rest

/-- Embeds `filepath.Ext`. -/
def goExt (s : String) : String :=
  goExtRev [] s.data.reverse

/-- Go's byte slicing `s[:len(s)-n]` (ASCII paths). -/
def dropRightStr (s : String) (n : Nat) : String :=
  String.mk (s.data.take (s.data.length - n))

/-- The loop of `ToggleMod`: find the entry by id, set `Enabled`, and
rename the backing file by appending or stripping the literal
`.disabled` suffix (9 bytes) when its current extension disagrees with
the requested state; a failed rename aborts before the save, so the
persisted manifest is unchanged. `renameOk` models `os.Rename`'s
outcome. Entries past the first match are untouched. -/
def toggleList (modID : String) (enabled renameOk : Bool) :
    List Mod → Except String (List Mod)
  | [] => Except.error ("mod not found: " ++ modID)
  | m :: rest =>
      if m.id == modID then
        let oldPath := m.filePath
        let newPath :=
          if enabled && goExt oldPath == ".disabled" then
            dropRightStr oldPath 9
          else if !enabled && goExt oldPath != ".disabled" then
            oldPath ++ ".disabled"
          else oldPath
        if oldPath ≠ newPath ∧ renameOk = false then
          Except.error "rename failed"
        else
          Except.ok ({ m with enabled := enabled, filePath := newPath } :: rest)
      else
        (toggleList modID enabled renameOk rest).map (m :: ·)

/-- Embeds `ToggleMod`: load, toggle, save; the result is the persisted
manifest, or the error when the mod is absent or the rename fails. -/
def ToggleMod (modID : String) (enabled renameOk : Bool)
    (manifest : ModManifest) : Except String ModManifest :=
  (toggleList modID enabled renameOk manifest.mods.toList).map
    fun l => { manifest with mods := some l }

/-- Struct `ModFile` from the CurseForge client. -/
structure ModFile where
  id : Int
  modId : Int
  displayName : String
  fileName : String
  fileLength : Int
  downloadURL : String
  fileDate : String
  releaseType : Int
  deriving DecidableEq

/-- Struct `ModAuthor` from the CurseForge client. -/
structure ModAuthor where
  id : Int
  name : String
  url : String
  deriving DecidableEq

/-- Struct `ModCategory` from the CurseForge client. -/
structure ModCategory where
  id : Int
  name : String
  slug : String
  url : String
  iconURL : String
  deriving DecidableEq

/-- Struct `ModLogo` from the CurseForge client. -/
structure ModLogo where
  id : Int
  modId : Int
  title : String
  description : String
  thumbnailURL : String
  url : String
  deriving DecidableEq

/-- Struct `CurseForgeMod` (the fields `DownloadMod` consumes, plus identity
and date metadata). -/
structure CurseForgeMod where
  id : Int
  gameId : Int
  name : String
  slug : String
  summary : String
  downloadCount : Int
  dateCreated : String
  dateModified : String
  dateReleased : String
  logo : Option ModLogo
  categories : List ModCategory
  authors : List ModAuthor
  latestFiles : List ModFile
  mainFileID : Int
  allowModDistribution : Bool
  deriving DecidableEq

/-- The file-selection loop of `DownloadMod`: start from
`LatestFiles[0]` and take any file with a strictly later `FileDate`
(lexicographic string comparison). `none` when the list is empty. -/
def selectLatest : List ModFile → Option ModFile
  | [] => none
  | f0 :: rest =>
      some ((f0 :: rest).foldl
        (fun acc f => if strLt acc.fileDate f.fileDate then f else acc) f0)

/-- The catalog entry `DownloadMod` builds after a successful transfer. -/
def mkInstalledMod (cfMod : CurseForgeMod) (latestFile : ModFile)
    (destPath now : String) : Mod :=
  { id := "cf-" ++ toString cfMod.id,
    name := cfMod.name,
    version := latestFile.displayName,
    author := (cfMod.authors.head?.map ModAuthor.name).getD "Unknown",
    description := cfMod.summary,
    downloadURL := latestFile.downloadURL,
    curseForgeID := cfMod.id,
    enabled := true,
    installedAt := now,
    updatedAt := now,
    filePath := destPath,
    iconURL := (cfMod.logo.map ModLogo.thumbnailURL).getD "",
    downloads := cfMod.downloadCount,
    category := (cfMod.categories.head?.map ModCategory.name).getD "General" }

/-- Result of `DownloadMod`: the persisted mods manifest afterwards,
the file names present in the mods directory afterwards, and the
outcome. -/
structure DownloadResult where
  manifest : ModManifest
  modsDirFiles : List String
  result : Except String Mod

/-- Embeds `DownloadMod`. Validation before any filesystem write: an empty
`LatestFiles` or an empty `DownloadURL` on the selected file errors out
with the mods directory and manifest untouched. `dlOk` models the
transfer service's outcome: on failure the partially written
destination file is removed (`os.Remove(destPath)`) and the manifest is
not touched; on success the file is present and the entry is
registered via `AddMod`. `fsFiles` is the set of file names in the mods
directory; `now` is `time.Now().Format(time.RFC3339)`. -/
def DownloadMod (modsDir : String) (cfMod : CurseForgeMod) (dlOk : Bool)
    (now : String) (fsFiles : List String) (manifest : ModManifest) :
    DownloadResult :=
  match selectLatest cfMod.latestFiles with
  | none =>
      { manifest := manifest, modsDirFiles := fsFiles,
        result := Except.error ("no files available for mod " ++ cfMod.name) }
  | some latestFile =>
      if latestFile.downloadURL == "" then
        { manifest := manifest, modsDirFiles := fsFiles,
          result := Except.error
            "download not available for this mod (author disabled distribution)" }
      else
        let destPath := modsDir ++ "/" ++ latestFile.fileName
        if dlOk then
          let mod := mkInstalledMod cfMod latestFile destPath now
          { manifest := AddMod mod manifest,
            modsDirFiles := (fsFiles.filter (· ≠ latestFile.fileName)) ++ [latestFile.fileName],
            result := Except.ok mod }
        else
          { manifest := manifest,
            modsDirFiles := fsFiles.filter (· ≠ latestFile.fileName),
            result := Except.error "failed to download mod" }

/-- The ids of the mods catalog. -/
def modIds (m : ModManifest) : List String :=
  m.mods.toList.map Mod.id

/-- Disable then re-enable a mod, both renames succeeding. -/
def toggleTwice (modID : String) (manifest : ModManifest) :
    Except String ModManifest :=
  ToggleMod modID false true manifest >>= ToggleMod modID true true

/-- Example world fixture. -/
def exWorld : World :=
  { id := "w1", name := "w1", path := "worlds/w1",
    createdAt := "2024-01-01T00:00:00Z", lastPlayed := "2024-01-01T00:00:00Z",
    sizeBytes := 3, gameMode := "Survival", seed := "",
    isBackup := false, backupOf := "" }

/-- Example fixture: a previously restored world already in the catalog
whose id collides with the one a later restore generates. -/
def exRestoredWorld : World :=
  { id := "restored_20060102150405", name := "old restore",
    path := "worlds/restored_20060102150405",
    createdAt := "c", lastPlayed := "l", sizeBytes := 0,
    gameMode := "Survival", seed := "", isBackup := false, backupOf := "" }

/-- Example directory entry fixture, a valid world directory named "a". -/
def exEntryA : DirEntry :=
  { name := "a", isDir := true, hasLevelDat := true, hasWorldJson := false,
    infoOk := true, modTime := "2024-01-01T00:00:00Z", size := 1 }

/-- Example directory entry fixture, named "b", same mod time as "a". -/
def exEntryB : DirEntry :=
  { exEntryA with name := "b", size := 2 }

/-- Example world fixture: exactly what `processEntry "wd"` builds for
`exEntryA` against an empty prior catalog. -/
def exWorldA : World :=
  { id := "a", name := "a", path := "wd/a",
    createdAt := "2024-01-01T00:00:00Z", lastPlayed := "2024-01-01T00:00:00Z",
    sizeBytes := 1, gameMode := "Survival", seed := "",
    isBackup := false, backupOf := "" }

/-- Example world fixture for `exEntryB`: same `lastPlayed` as
`exWorldA`, larger id. -/
def exWorldB : World :=
  { exWorldA with id := "b", name := "b", path := "wd/b", sizeBytes := 2 }

/-- Example directory entry fixture for the rescan scenario. -/
def exEntryW1 : DirEntry :=
  { name := "w1", isDir := true, hasLevelDat := true, hasWorldJson := false,
    infoOk := true, modTime := "2024-06-01T00:00:00Z", size := 5 }

/-- Example prior catalog entry for the rescan scenario: user-renamed
display name, recorded creation time, stale size. -/
def exPriorWorld : World :=
  { id := "w1", name := "My World", path := "wd/w1",
    createdAt := "2020-01-01T00:00:00Z", lastPlayed := "2020-01-02T00:00:00Z",
    sizeBytes := 3, gameMode := "Creative", seed := "xyz",
    isBackup := false, backupOf := "" }

/-- Example mod fixture whose backing file already carries the
`.disabled` suffix. -/
def exModDisabled : Mod :=
  { id := "m1", name := "Example", version := "1", author := "a",
    description := "", downloadURL := "", curseForgeID := 0,
    enabled := false, installedAt := "t", updatedAt := "t",
    filePath := "a.disabled", iconURL := "", downloads := 0, category := "" }

/-- Example mods manifest holding only `exModDisabled`. -/
def exMfDisabled : ModManifest :=
  { mods := some [exModDisabled], version := "1.0" }

/-- Example enabled mod fixture. -/
def exMod : Mod :=
  { exModDisabled with id := "m2", filePath := "b.jar", enabled := true }

/-- Example mods manifest holding only `exMod`. -/
def exMfSingle : ModManifest :=
  { mods := some [exMod], version := "1.0" }

/-- Example CurseForge file fixture with a working download URL. -/
def exModFile : ModFile :=
  { id := 1, modId := 7, displayName := "Example 1.0",
    fileName := "example.jar", fileLength := 10,
    downloadURL := "https://cdn/example.jar",
    fileDate := "2024-01-01", releaseType := 1 }

/-- Example remote item fixture with one downloadable file. -/
def exCFMod : CurseForgeMod :=
  { id := 7, gameId := 70216, name := "Example", slug := "example",
    summary := "s", downloadCount := 5, dateCreated := "d",
    dateModified := "d", dateReleased := "d", logo := none,
    categories := [], authors := [], latestFiles := [exModFile],
    mainFileID := 1, allowModDistribution := true }

/-- Example remote item fixture with an empty file list. -/
def exCFModNoFiles : CurseForgeMod :=
  { exCFMod with latestFiles := [] }

/-- Example CurseForge file fixture whose author disabled distribution
(empty download URL). -/
def exModFileNoURL : ModFile :=
  { exModFile with downloadURL := "" }

/-- Example remote item fixture whose only file is not distributable. -/
def exCFModNoURL : CurseForgeMod :=
  { exCFMod with latestFiles := [exModFileNoURL] }

/-- Unfolding lemma: the elements of a non-nil Go slice. -/
theorem toList_some {α : Type} (l : List α) :
    GoSlice.toList (some l) = l := rfl

/-- Claim C2 — counterexample. The claim states that every manifest save
is an atomic write-temp-then-rename; `SaveManifest`'s operation trace is
a direct `os.WriteFile` of the final manifest path with no rename, so it
is not an atomic replace. -/
theorem C2_counterexample :
    ¬ isAtomicReplaceWrite
        (saveManifestOps "mods" "mods/manifest.json") "mods/manifest.json" := by
  intro h
  exact h.1 (FsOp.writeFile "mods/manifest.json")
    (by simp [saveManifestOps]) rfl

/-- Claim C2 — amended: both `SaveManifest` variants persist the catalog
by writing the serialized document directly to the final manifest path
(after ensuring the parent directory), with no temporary file and no
rename step, so an interruption mid-write can leave a partially-written
file. -/
theorem C2_direct_write (dir path : String) :
    FsOp.writeFile path ∈ saveManifestOps dir path ∧
      ∀ src dst, FsOp.rename src dst ∉ saveManifestOps dir path := by
  refine ⟨by simp [saveManifestOps], ?_⟩
  intro src dst hmem
  simp [saveManifestOps] at hmem

/-- Witness for `C2_direct_write` at a concrete manifest path. -/
theorem C2_direct_write_witness :
    FsOp.writeFile "worlds/manifest.json" ∈
        saveManifestOps "worlds" "worlds/manifest.json" ∧
      ∀ src dst, FsOp.rename src dst ∉
        saveManifestOps "worlds" "worlds/manifest.json" :=
  C2_direct_write "worlds" "worlds/manifest.json"

/-- Claim C1 — counterexample. The claim states that a partially-copied
backup destination is removed before the error is returned; on a copy
that fails after one of two files, `BackupWorld` surfaces the error but
the destination still holds the copied file. -/
theorem C1_counterexample :
    (BackupWorld "backups" exWorld true "ts" "now"
        [("a", 1), ("b", 2)] (some 1) emptyWorldManifest).result =
      Except.error "failed to create backup" ∧
    (BackupWorld "backups" exWorld true "ts" "now"
        [("a", 1), ("b", 2)] (some 1) emptyWorldManifest).destFiles ≠ [] :=
  ⟨rfl, by decide⟩

/-- Claim C1 — amended: when the directory copy of a backup or restore
fails partway, the error is surfaced and no catalog entry is written
(the manifest is unchanged; `BackupWorld` never writes the manifest at
all), but the partially-copied destination is left in place, holding
exactly the files copied before the failure — it is not removed. -/
theorem C1_no_cleanup_on_copy_failure (backupsDir worldsDir backupID : String)
    (world : World) (timestamp now ts2 now2 : String)
    (files files2 : List (String × Int)) (k k2 : Nat)
    (manifest manifest2 : WorldManifest) :
    ((BackupWorld backupsDir world true timestamp now files (some k)
        manifest).manifest = manifest ∧
      (BackupWorld backupsDir world true timestamp now files (some k)
        manifest).destFiles = (files.take k).map Prod.fst ∧
      (BackupWorld backupsDir world true timestamp now files (some k)
        manifest).result = Except.error "failed to create backup") ∧
    ((RestoreBackup worldsDir backupID true files2 ts2 now2 (some k2)
        manifest2).manifest = manifest2 ∧
      (RestoreBackup worldsDir backupID true files2 ts2 now2 (some k2)
        manifest2).destFiles = (files2.take k2).map Prod.fst ∧
      (RestoreBackup worldsDir backupID true files2 ts2 now2 (some k2)
        manifest2).result = Except.error "failed to restore backup") :=
  ⟨⟨rfl, rfl, rfl⟩, ⟨rfl, rfl, rfl⟩⟩

/-- Claim C10 — every successfully restored world discards the original
entry's metadata: game mode is hardcoded to "Survival", the seed is
empty, and the display name is "Restored - {backupId}", whatever the
backed-up world recorded. -/
theorem C10_restore_discards_metadata (worldsDir backupID : String)
    (files : List (String × Int)) (timestamp now : String)
    (manifest : WorldManifest) (w : World)
    (h : (RestoreBackup worldsDir backupID true files timestamp now none
        manifest).result = Except.ok w) :
    w.gameMode = "Survival" ∧ w.seed = "" ∧
      w.name = "Restored - " ++ backupID := by
  simp only [RestoreBackup, Bool.not_true, Bool.false_eq_true, if_false,
    reduceIte] at h
  cases h
  exact ⟨rfl, rfl, rfl⟩

/-- Witness for `C10_restore_discards_metadata` at a concrete restore. -/
theorem C10_restore_discards_metadata_witness :
    ({ id := "restored_20240101", name := "Restored - b1",
       path := "wd/restored_20240101",
       createdAt := "2024-01-01T00:00:00Z",
       lastPlayed := "2024-01-01T00:00:00Z", sizeBytes := 0,
       gameMode := "Survival", seed := "", isBackup := false,
       backupOf := "" } : World).gameMode = "Survival" ∧
    ({ id := "restored_20240101", name := "Restored - b1",
       path := "wd/restored_20240101",
       createdAt := "2024-01-01T00:00:00Z",
       lastPlayed := "2024-01-01T00:00:00Z", sizeBytes := 0,
       gameMode := "Survival", seed := "", isBackup := false,
       backupOf := "" } : World).seed = "" ∧
    ({ id := "restored_20240101", name := "Restored - b1",
       path := "wd/restored_20240101",
       createdAt := "2024-01-01T00:00:00Z",
       lastPlayed := "2024-01-01T00:00:00Z", sizeBytes := 0,
       gameMode := "Survival", seed := "", isBackup := false,
       backupOf := "" } : World).name = "Restored - " ++ "b1" :=
  C10_restore_discards_metadata "wd" "b1" [] "20240101"
    "2024-01-01T00:00:00Z" emptyWorldManifest _ rfl

/-- Claim C9 — counterexample. The claim states the persisted manifest's
JSON is `{ worlds: [], version: "1.0" }`; scanning a root with zero
valid subdirectories leaves the accumulated Go slice nil, which
`encoding/json` marshals as `"worlds": null`, not the empty array. -/
theorem C9_counterexample :
    (scanWorlds "wd" [] emptyWorldManifest).2.worlds ≠ some [] ∧
    worldsFieldIsNullJSON (scanWorlds "wd" [] emptyWorldManifest).2.worlds
      = true := by
  constructor
  · decide
  · decide

/-- Claim C9 — amended: scanning a content root with zero valid
subdirectories returns an empty list and persists a manifest carrying
the prior version tag (for a fresh root, "1.0") whose `worlds` field is
the nil slice, marshalled by `encoding/json` as `"worlds": null` rather
than `"worlds": []`. -/
theorem C9_empty_scan (worldsDir : String) (entries : List DirEntry)
    (manifest : WorldManifest)
    (h : ∀ e ∈ entries,
        processEntry worldsDir manifest.worlds.toList e = none) :
    (scanWorlds worldsDir entries manifest).1.toList = [] ∧
    worldsFieldIsNullJSON (scanWorlds worldsDir entries manifest).2.worlds
      = true ∧
    (scanWorlds worldsDir entries manifest).2.version = manifest.version := by
  have hf : entries.filterMap
      (processEntry worldsDir manifest.worlds.toList) = [] :=
    List.filterMap_eq_nil_iff.mpr h
  simp only [scanWorlds]
  rw [hf]
  simp [sortWorlds, toGoSlice, worldsFieldIsNullJSON, GoSlice.toList]

/-- An id found after `addModList` is the added mod's id or one already
present. -/
theorem mem_map_id_addModList : ∀ (l : List Mod) (mod : Mod) (x : String),
    x ∈ (addModList l mod).map Mod.id → x = mod.id ∨ x ∈ l.map Mod.id := by
  intro l mod
  induction l with
  | nil =>
      intro x h
      simp [addModList] at h
      exact Or.inl h
  | cons m rest ih =>
      intro x h
      simp only [addModList] at h
      by_cases hc : m.id == mod.id
      · rw [if_pos hc] at h
        simp only [List.map_cons, List.mem_cons] at h
        rcases h with h | h
        · exact Or.inl h
        · exact Or.inr (by simp [List.mem_cons, h])
      · rw [if_neg hc] at h
        simp only [List.map_cons, List.mem_cons] at h
        rcases h with h | h
        · exact Or.inr (by simp [h])
        · rcases ih x h with h' | h'
          · exact Or.inl h'
          · exact Or.inr (by simp [List.mem_cons, h'])

/-- Replace-or-append preserves pairwise-distinct ids. -/
theorem nodup_addModList : ∀ (l : List Mod) (mod : Mod),
    (l.map Mod.id).Nodup → ((addModList l mod).map Mod.id).Nodup := by
  intro l mod
  induction l with
  | nil =>
      intro _
      simp [addModList]
  | cons m rest ih =>
      intro h
      simp only [List.map_cons, List.nodup_cons] at h
      obtain ⟨hm, hrest⟩ := h
      simp only [addModList]
      by_cases hc : m.id == mod.id
      · rw [if_pos hc]
        simp only [List.map_cons, List.nodup_cons]
        have hid : m.id = mod.id := by simpa using hc
        exact ⟨hid ▸ hm, hrest⟩
      · rw [if_neg hc]
        simp only [List.map_cons, List.nodup_cons]
        refine ⟨?_, ih hrest⟩
        intro hmem
        rcases mem_map_id_addModList rest mod m.id hmem with h' | h'
        · exact hc (by simpa using h')
        · exact hm h'

/-- Claim C3 — counterexample. The claim states ids stay pairwise unique
after every mutating operation, in particular after `RestoreBackup`;
restoring when the catalog already holds an entry with the generated id
`restored_{timestamp}` appends a duplicate, since the code performs no
uniqueness check before appending. -/
theorem C3_counterexample :
    ¬ (worldIds ((RestoreBackup "worlds" "b1" true []
        "20060102150405" "now" none
        { worlds := some [exRestoredWorld], version := "1.0" }).manifest)).Nodup := by
  decide

/-- Claim C3 — amended: ids stay pairwise unique after `AddMod` (it
replaces the entry with a matching id instead of appending a
duplicate); after `RestoreBackup` they stay unique only when the
generated id `restored_{timestamp}` is not already in the catalog —
the code appends without checking. -/
theorem C3_unique_ids :
    (∀ (mf : ModManifest) (mod : Mod),
        (modIds mf).Nodup → (modIds (AddMod mod mf)).Nodup) ∧
    (∀ (worldsDir backupID : String) (files : List (String × Int))
        (timestamp now : String) (manifest : WorldManifest),
        (worldIds manifest).Nodup →
        ("restored_" ++ timestamp) ∉ worldIds manifest →
        (worldIds (RestoreBackup worldsDir backupID true files timestamp now
          none manifest).manifest).Nodup) := by
  constructor
  · intro mf mod h
    simp only [AddMod, modIds, GoSlice.toList]
    exact nodup_addModList _ _ h
  · intro worldsDir backupID files timestamp now manifest hnd hfresh
    simp only [RestoreBackup, Bool.not_true, Bool.false_eq_true, if_false,
      reduceIte, worldIds, goAppend, GoSlice.toList, List.map_append,
      List.map_cons, List.map_nil]
    rw [List.nodup_append]
    refine ⟨hnd, by simp, ?_⟩
    intro x hx hx'
    simp only [List.mem_cons, List.not_mem_nil, or_false] at hx'
    exact hfresh (hx' ▸ hx)

/-- Witness for `C3_unique_ids` at concrete catalogs. -/
theorem C3_unique_ids_witness :
    (modIds (AddMod exMod emptyModManifest)).Nodup ∧
    (worldIds (RestoreBackup "worlds" "b1" true [] "20240101" "now" none
        emptyWorldManifest).manifest).Nodup :=
  ⟨C3_unique_ids.1 emptyModManifest exMod (by decide),
   C3_unique_ids.2 "worlds" "b1" [] "20240101" "now" emptyWorldManifest
     (by decide) (by decide)⟩

/-- Adding a mod whose id is fresh appends it at the end. -/
theorem addModList_of_not_mem (l : List Mod) (mod : Mod)
    (h : mod.id ∉ l.map Mod.id) : addModList l mod = l ++ [mod] := by
  induction l with
  | nil => rfl
  | cons m rest ih =>
      simp only [List.map_cons, List.mem_cons, not_or] at h
      obtain ⟨h1, h2⟩ := h
      simp only [addModList]
      rw [if_neg (by simpa using Ne.symm h1), ih h2]
      simp

/-- Adding a mod over a catalog that ends with an entry of the same id
(and no earlier entry with that id) replaces that last entry. -/
theorem addModList_overwrite_append (l : List Mod) (mod1 mod2 : Mod)
    (hid : mod1.id = mod2.id) (h : mod2.id ∉ l.map Mod.id) :
    addModList (l ++ [mod1]) mod2 = l ++ [mod2] := by
  induction l with
  | nil => simp [addModList, hid]
  | cons m rest ih =>
      simp only [List.map_cons, List.mem_cons, not_or] at h
      obtain ⟨h1, h2⟩ := h
      simp only [List.cons_append, addModList]
      rw [if_neg (by simpa using Ne.symm h1)]
      simp only [List.append_eq]
      rw [ih h2]

/-- Filtering by an id held only by the final entry keeps exactly it. -/
theorem filter_id_append_single (l : List Mod) (mod : Mod) (key : String)
    (hkey : mod.id = key) (h : key ∉ l.map Mod.id) :
    (l ++ [mod]).filter (fun m => m.id == key) = [mod] := by
  rw [List.filter_append]
  have h1 : l.filter (fun m => m.id == key) = [] := by
    rw [List.filter_eq_nil_iff]
    intro a ha
    simp only [beq_iff_eq]
    intro hak
    exact h (hak ▸ List.mem_map_of_mem Mod.id ha)
  rw [h1]
  simp [hkey]

/-- Claim C5 — `DownloadMod` fails before writing anything when the item
has no downloadable file (empty file list, or the selected file's
download URL is empty because distribution is disabled), and on
transfer failure it removes the destination file and leaves the catalog
untouched. -/
theorem C5_install_failure_safety (modsDir : String) (cfMod : CurseForgeMod)
    (dlOk : Bool) (now : String) (fs : List String) (mf : ModManifest) :
    ((cfMod.latestFiles = [] →
        (DownloadMod modsDir cfMod dlOk now fs mf).manifest = mf ∧
        (DownloadMod modsDir cfMod dlOk now fs mf).modsDirFiles = fs ∧
        (DownloadMod modsDir cfMod dlOk now fs mf).result =
          Except.error ("no files available for mod " ++ cfMod.name)) ∧
      (∀ f, selectLatest cfMod.latestFiles = some f → f.downloadURL = "" →
        (DownloadMod modsDir cfMod dlOk now fs mf).manifest = mf ∧
        (DownloadMod modsDir cfMod dlOk now fs mf).modsDirFiles = fs ∧
        (DownloadMod modsDir cfMod dlOk now fs mf).result =
          Except.error
            "download not available for this mod (author disabled distribution)")) ∧
    (∀ f, dlOk = false → selectLatest cfMod.latestFiles = some f →
        f.downloadURL ≠ "" →
        (DownloadMod modsDir cfMod dlOk now fs mf).manifest = mf ∧
        f.fileName ∉ (DownloadMod modsDir cfMod dlOk now fs mf).modsDirFiles ∧
        (DownloadMod modsDir cfMod dlOk now fs mf).result =
          Except.error "failed to download mod") := by
  refine ⟨⟨?_, ?_⟩, ?_⟩
  · intro hfiles
    simp [DownloadMod, hfiles, selectLatest]
  · intro f hsel hurl
    simp [DownloadMod, hsel, hurl]
  · intro f hdl hsel hurl
    have hurl' : (f.downloadURL == "") = false := by simpa using hurl
    subst hdl
    simp [DownloadMod, hsel, hurl', List.mem_filter]

/-- Witness for `C5_install_failure_safety`: an empty file list, a
distribution-disabled file, and a failed transfer, each at concrete
inputs. -/
theorem C5_install_failure_safety_witness :
    ((DownloadMod "mods" exCFModNoFiles true "t" ["x.jar"]
        emptyModManifest).manifest = emptyModManifest ∧
      (DownloadMod "mods" exCFModNoFiles true "t" ["x.jar"]
        emptyModManifest).modsDirFiles = ["x.jar"] ∧
      (DownloadMod "mods" exCFModNoFiles true "t" ["x.jar"]
        emptyModManifest).result =
        Except.error ("no files available for mod " ++ exCFModNoFiles.name)) ∧
    ((DownloadMod "mods" exCFModNoURL true "t" ["x.jar"]
        emptyModManifest).manifest = emptyModManifest ∧
      (DownloadMod "mods" exCFModNoURL true "t" ["x.jar"]
        emptyModManifest).modsDirFiles = ["x.jar"] ∧
      (DownloadMod "mods" exCFModNoURL true "t" ["x.jar"]
        emptyModManifest).result =
        Except.error
          "download not available for this mod (author disabled distribution)") ∧
    ((DownloadMod "mods" exCFMod false "t" ["example.jar"]
        emptyModManifest).manifest = emptyModManifest ∧
      exModFile.fileName ∉ (DownloadMod "mods" exCFMod false "t"
        ["example.jar"] emptyModManifest).modsDirFiles ∧
      (DownloadMod "mods" exCFMod false "t" ["example.jar"]
        emptyModManifest).result =
        Except.error "failed to download mod") :=
  ⟨(C5_install_failure_safety "mods" exCFModNoFiles true "t" ["x.jar"]
      emptyModManifest).1.1 rfl,
   (C5_install_failure_safety "mods" exCFModNoURL true "t" ["x.jar"]
      emptyModManifest).1.2 exModFileNoURL (by decide) rfl,
   (C5_install_failure_safety "mods" exCFMod false "t" ["example.jar"]
      emptyModManifest).2 exModFile rfl (by decide) (by decide)⟩

/-- Claim C8 — installing the same remote item twice registers exactly
one catalog entry, keyed `cf-{remoteId}`, and the second install's
fields overwrite the first's. -/
theorem C8_install_dedup (modsDir : String) (cfMod : CurseForgeMod)
    (now1 now2 : String) (fs : List String) (mf : ModManifest) (f : ModFile)
    (hsel : selectLatest cfMod.latestFiles = some f)
    (hurl : f.downloadURL ≠ "")
    (hfresh : ("cf-" ++ toString cfMod.id) ∉ modIds mf) :
    ((DownloadMod modsDir cfMod true now2
        (DownloadMod modsDir cfMod true now1 fs mf).modsDirFiles
        (DownloadMod modsDir cfMod true now1 fs mf).manifest).manifest).mods.toList.filter
        (fun m => m.id == "cf-" ++ toString cfMod.id) =
      [mkInstalledMod cfMod f (modsDir ++ "/" ++ f.fileName) now2] := by
  have hurl' : (f.downloadURL == "") = false := by simpa using hurl
  simp only [DownloadMod, hsel, hurl', Bool.false_eq_true, if_false,
    reduceIte, if_true, AddMod, toList_some]
  rw [addModList_of_not_mem mf.mods.toList _
    (by simpa [modIds, mkInstalledMod] using hfresh)]
  rw [addModList_overwrite_append mf.mods.toList
    (mkInstalledMod cfMod f (modsDir ++ "/" ++ f.fileName) now1)
    (mkInstalledMod cfMod f (modsDir ++ "/" ++ f.fileName) now2)
    rfl (by simpa [modIds, mkInstalledMod] using hfresh)]
  exact filter_id_append_single _ _ _ rfl
    (by simpa [modIds] using hfresh)

/-- Witness for `C8_install_dedup` at a concrete remote item. -/
theorem C8_install_dedup_witness :
    ((DownloadMod "mods" exCFMod true "t2"
        (DownloadMod "mods" exCFMod true "t1" [] emptyModManifest).modsDirFiles
        (DownloadMod "mods" exCFMod true "t1" []
          emptyModManifest).manifest).manifest).mods.toList.filter
        (fun m => m.id == "cf-" ++ toString exCFMod.id) =
      [mkInstalledMod exCFMod exModFile ("mods" ++ "/" ++ exModFile.fileName)
        "t2"] :=
  C8_install_dedup "mods" exCFMod "t1" "t2" [] emptyModManifest exModFile
    (by decide) (by decide) (by decide)

/-- Appending concatenates the character data of strings. -/
theorem string_data_append (s t : String) :
    (s ++ t).data = s.data ++ t.data := by
  cases s
  cases t
  rfl

/-- Appending the `.disabled` suffix lands the path in the
`.disabled`-extension class, whatever the path was. -/
theorem goExt_append_disabled (s : String) :
    goExt (s ++ ".disabled") = ".disabled" := by
  show goExtRev [] (s ++ ".disabled").data.reverse = ".disabled"
  rw [string_data_append,
    show (".disabled" : String).data =
      ['.', 'd', 'i', 's', 'a', 'b', 'l', 'e', 'd'] from rfl,
    List.reverse_append,
    show (['.', 'd', 'i', 's', 'a', 'b', 'l', 'e', 'd'] : List Char).reverse =
      ['d', 'e', 'l', 'b', 'a', 's', 'i', 'd', '.'] from rfl]
  simp [goExtRev]

/-- Stripping nine bytes undoes appending the `.disabled` suffix. -/
theorem dropRight_append_disabled (s : String) :
    dropRightStr (s ++ ".disabled") 9 = s := by
  show String.mk (((s ++ ".disabled").data).take
    ((s ++ ".disabled").data.length - 9)) = s
  rw [string_data_append, List.length_append,
    show (".disabled" : String).data.length = 9 from rfl]
  simp only [Nat.add_sub_cancel]
  rw [List.take_left]

/-- Appending the `.disabled` suffix changes the path. -/
theorem append_disabled_ne (s : String) : s ++ ".disabled" ≠ s := by
  intro h
  have h2 := congrArg (fun t => t.data.length) h
  simp only [string_data_append, List.length_append,
    show (".disabled" : String).data.length = 9 from rfl] at h2
  omega

/-- Disabling then re-enabling a mod whose path is not already in the
`.disabled` class appends the suffix and then strips it back off,
leaving the entry with its original path and `enabled = true`. -/
theorem toggleList_roundtrip (m : Mod) :
    ∀ (pre : List Mod) (post : List Mod), (∀ p ∈ pre, p.id ≠ m.id) →
    goExt m.filePath ≠ ".disabled" →
    toggleList m.id false true (pre ++ m :: post) =
      Except.ok
        (pre ++
          { m with enabled := false, filePath := m.filePath ++ ".disabled" }
            :: post) ∧
    toggleList m.id true true
      (pre ++
        { m with enabled := false, filePath := m.filePath ++ ".disabled" }
          :: post) =
      Except.ok (pre ++ { m with enabled := true } :: post) := by
  intro pre
  induction pre with
  | nil =>
      intro post _ hext
      have hb : (goExt m.filePath != ".disabled") = true := by
        simpa using hext
      constructor
      · simp only [List.nil_append, toggleList, beq_self_eq_true, if_true,
          Bool.false_and, Bool.not_false, Bool.true_and, hb,
          Bool.false_eq_true, if_false, reduceIte]
        simp
      · simp only [List.nil_append, toggleList, beq_self_eq_true, if_true,
          Bool.true_and, goExt_append_disabled, beq_self_eq_true,
          dropRight_append_disabled]
        simp
  | cons p pre ih =>
      intro post hpre hext
      have hp : (p.id == m.id) = false := by
        simpa using hpre p (by simp)
      obtain ⟨ih1, ih2⟩ := ih post (fun q hq => hpre q (by simp [hq])) hext
      constructor
      · simp only [List.cons_append, toggleList, hp, Bool.false_eq_true,
          if_false, reduceIte, Except.map]
        rw [List.append_eq, ih1]
      · simp only [List.cons_append, toggleList, hp, Bool.false_eq_true,
          if_false, reduceIte, Except.map]
        rw [List.append_eq, ih2]

/-- Claim C7 — counterexample. The claim quantifies over every mod entry
in the catalog; for an entry whose backing path already ends in
`.disabled`, `toggle(id, false)` leaves the path alone (its extension
already marks it disabled) and `toggle(id, true)` then strips the
suffix, so the pair of toggles ends with path "a" instead of the
original "a.disabled". -/
theorem C7_counterexample :
    toggleTwice "m1" exMfDisabled =
      Except.ok
        { mods :=
            some [{ exModDisabled with enabled := true, filePath := "a" }],
          version := "1.0" } ∧
    ({ exModDisabled with enabled := true, filePath := "a" } : Mod).filePath
      ≠ exModDisabled.filePath := by
  constructor
  · rfl
  · decide

/-- Claim C7 — amended: for every catalog entry whose `FilePath` is not
already in the `.disabled` extension class, `toggle(id, false)` then
`toggle(id, true)` (both renames succeeding) restores exactly the
original path and leaves `enabled = true`; an entry already carrying
the `.disabled` suffix instead ends with the suffix stripped. -/
theorem C7_toggle_roundtrip (mf : ModManifest) (pre post : List Mod)
    (m : Mod)
    (hmf : mf.mods.toList = pre ++ m :: post)
    (hpre : ∀ p ∈ pre, p.id ≠ m.id)
    (hext : goExt m.filePath ≠ ".disabled") :
    ∃ mf1, ToggleMod m.id false true mf = Except.ok mf1 ∧
      ToggleMod m.id true true mf1 =
        Except.ok { mf with
          mods := some (pre ++ { m with enabled := true } :: post) } := by
  obtain ⟨h1, h2⟩ := toggleList_roundtrip m pre post hpre hext
  refine
    ⟨{ mf with
        mods :=
          some
            (pre ++
              { m with
                  enabled := false,
                  filePath := m.filePath ++ ".disabled" } :: post) },
      ?_, ?_⟩
  · simp [ToggleMod, hmf, h1, Except.map]
  · simp [ToggleMod, toList_some, h2, Except.map]

/-- Witness for `C7_toggle_roundtrip` at a concrete single-entry
catalog. -/
theorem C7_toggle_roundtrip_witness :
    ∃ mf1, ToggleMod exMod.id false true exMfSingle = Except.ok mf1 ∧
      ToggleMod exMod.id true true mf1 =
        Except.ok { exMfSingle with
          mods := some ([] ++ { exMod with enabled := true } :: []) } :=
  C7_toggle_roundtrip exMfSingle [] [] exMod rfl (by simp) (by decide)

/-- Inserting into a sorted prefix is a permutation of consing. -/
theorem perm_insertWorld (w : World) (l : List World) :
    (insertWorld w l).Perm (w :: l) := by
  induction l with
  | nil => simp [insertWorld]
  | cons x xs ih =>
      simp only [insertWorld]
      split
      · exact List.Perm.refl _
      · exact (List.Perm.cons x ih).trans (List.Perm.swap w x xs)

/-- The insertion-sort fold permutes the accumulator and the input. -/
theorem foldl_insertWorld_perm (l : List World) :
    ∀ acc : List World,
      (l.foldl (fun acc w => insertWorld w acc) acc).Perm (acc ++ l) := by
  induction l with
  | nil => intro acc; simp
  | cons x xs ih =>
      intro acc
      simp only [List.foldl_cons]
      refine (ih (insertWorld x acc)).trans ?_
      refine ((perm_insertWorld x acc).append_right xs).trans ?_
      simpa using List.perm_middle.symm

/-- The embedded sort is a permutation of its input. -/
theorem perm_sortWorlds (l : List World) : (sortWorlds l).Perm l := by
  simpa using foldl_insertWorld_perm l []

/-- Round-trip of the nil-tracking slice constructor. -/
theorem toList_toGoSlice {α : Type} (l : List α) :
    (toGoSlice l).toList = l := by
  cases l <;> rfl

/-- Claim C4 — rescanning a directory already present in the prior
catalog (matched on path) yields an entry that carries over the
user-editable fields (`Name`, `GameMode`, `Seed`) and the previously
recorded creation time, has the same id (the directory name), and has
its size recomputed from the filesystem and its `LastPlayed` refreshed
from directory metadata. -/
theorem C4_rescan_preserves_user_fields (worldsDir : String)
    (entries : List DirEntry) (manifest : WorldManifest) (e : DirEntry)
    (ex : World)
    (he : e ∈ entries) (hdir : e.isDir = true) (hname : e.name ≠ "backups")
    (hmarker : (e.hasLevelDat || e.hasWorldJson) = true)
    (hinfo : e.infoOk = true)
    (hex : lookupExisting manifest.worlds.toList (worldsDir ++ "/" ++ e.name)
      = some ex)
    (hid : ex.id = e.name) :
    ∃ w ∈ (scanWorlds worldsDir entries manifest).1.toList,
      w.id = ex.id ∧ w.name = ex.name ∧ w.createdAt = ex.createdAt ∧
      w.gameMode = ex.gameMode ∧ w.seed = ex.seed ∧
      w.sizeBytes = e.size ∧ w.lastPlayed = e.modTime := by
  have hpe : processEntry worldsDir manifest.worlds.toList e =
      some { id := e.name, name := ex.name,
             path := worldsDir ++ "/" ++ e.name,
             createdAt := ex.createdAt, lastPlayed := e.modTime,
             sizeBytes := e.size, gameMode := ex.gameMode, seed := ex.seed,
             isBackup := false, backupOf := "" } := by
    simp [processEntry, hdir, hname, hmarker, hinfo, hex]
  have hmem : ({ id := e.name, name := ex.name,
                 path := worldsDir ++ "/" ++ e.name,
                 createdAt := ex.createdAt, lastPlayed := e.modTime,
                 sizeBytes := e.size, gameMode := ex.gameMode,
                 seed := ex.seed,
                 isBackup := false, backupOf := "" } : World) ∈
      entries.filterMap (processEntry worldsDir manifest.worlds.toList) :=
    List.mem_filterMap.mpr ⟨e, he, hpe⟩
  refine ⟨{ id := e.name, name := ex.name,
            path := worldsDir ++ "/" ++ e.name,
            createdAt := ex.createdAt, lastPlayed := e.modTime,
            sizeBytes := e.size, gameMode := ex.gameMode, seed := ex.seed,
            isBackup := false, backupOf := "" }, ?_,
    hid.symm, rfl, rfl, rfl, rfl, rfl, rfl⟩
  simp only [scanWorlds, toList_toGoSlice]
  exact (perm_sortWorlds _).mem_iff.mpr hmem

/-- Witness for `C4_rescan_preserves_user_fields`: a concrete catalog
with a renamed world rescanned from an unchanged directory. -/
theorem C4_rescan_preserves_user_fields_witness :
    ∃ w ∈ (scanWorlds "wd" [exEntryW1]
        { worlds := some [exPriorWorld], version := "1.0" }).1.toList,
      w.id = exPriorWorld.id ∧ w.name = exPriorWorld.name ∧
      w.createdAt = exPriorWorld.createdAt ∧
      w.gameMode = exPriorWorld.gameMode ∧ w.seed = exPriorWorld.seed ∧
      w.sizeBytes = exEntryW1.size ∧ w.lastPlayed = exEntryW1.modTime :=
  C4_rescan_preserves_user_fields "wd" [exEntryW1]
    { worlds := some [exPriorWorld], version := "1.0" } exEntryW1
    exPriorWorld (by decide) (by decide) (by decide) (by decide)
    (by decide) (by decide) (by decide)

/-- Asymmetry of the bytewise string order. -/
theorem charListLt_asymm : ∀ (a b : List Char),
    charListLt a b = true → charListLt b a = false := by
  intro a
  induction a with
  | nil =>
      intro b h
      cases b with
      | nil => simp [charListLt] at h
      | cons y ys => rfl
  | cons x xs ih =>
      intro b h
      cases b with
      | nil => simp [charListLt] at h
      | cons y ys =>
          simp only [charListLt] at h ⊢
          by_cases hxy : x < y
          · rw [if_neg (lt_asymm hxy), if_pos hxy]
          · rw [if_neg hxy] at h
            by_cases hyx : y < x
            · rw [if_pos hyx] at h
              exact absurd h (by simp)
            · rw [if_neg hyx] at h
              rw [if_neg hyx, if_neg hxy]
              exact ih ys h

/-- Transitivity of the bytewise string order. -/
theorem charListLt_trans : ∀ (a b c : List Char),
    charListLt a b = true → charListLt b c = true →
    charListLt a c = true := by
  intro a
  induction a with
  | nil =>
      intro b c h1 h2
      cases c with
      | nil => cases b <;> simp [charListLt] at h1 h2
      | cons z zs => rfl
  | cons x xs ih =>
      intro b c h1 h2
      cases b with
      | nil => simp [charListLt] at h1
      | cons y ys =>
          cases c with
          | nil => simp [charListLt] at h2
          | cons z zs =>
              simp only [charListLt] at h1 h2 ⊢
              by_cases hxy : x < y
              · by_cases hyz : y < z
                · rw [if_pos (hxy.trans hyz)]
                · by_cases hzy : z < y
                  · rw [if_neg hyz, if_pos hzy] at h2
                    exact absurd h2 (by simp)
                  · have eyz : y = z :=
                      le_antisymm (not_lt.mp hzy) (not_lt.mp hyz)
                    rw [if_pos (eyz ▸ hxy)]
              · by_cases hyx : y < x
                · rw [if_neg hxy, if_pos hyx] at h1
                  exact absurd h1 (by simp)
                · have exy : x = y :=
                    le_antisymm (not_lt.mp hyx) (not_lt.mp hxy)
                  rw [if_neg hxy, if_neg hyx] at h1
                  by_cases hyz : y < z
                  · rw [if_pos (exy ▸ hyz)]
                  · by_cases hzy : z < y
                    · rw [if_neg hyz, if_pos hzy] at h2
                      exact absurd h2 (by simp)
                    · have eyz : y = z :=
                        le_antisymm (not_lt.mp hzy) (not_lt.mp hyz)
                      rw [if_neg hyz, if_neg hzy] at h2
                      have hnxz : ¬ x < z := by
                        rw [exy.trans eyz]
                        exact lt_irrefl z
                      have hnzx : ¬ z < x := by
                        rw [exy.trans eyz]
                        exact lt_irrefl z
                      rw [if_neg hnxz, if_neg hnzx]
                      exact ih ys zs h1 h2

/-- The scan comparator never holds both ways. -/
theorem worldLess_asymm {a b : World} (h : worldLess a b = true) :
    worldLess b a = false :=
  charListLt_asymm _ _ h

/-- The scan comparator chains transitively. -/
theorem worldLess_trans {x w z : World} (h1 : worldLess w x = true)
    (h2 : worldLess z w = true) : worldLess z x = true :=
  charListLt_trans _ _ _ h1 h2

/-- Inserting into a comparator-sorted prefix keeps it sorted. -/
theorem pairwise_insertWorld (w : World) (l : List World)
    (h : l.Pairwise (fun a b => worldLess b a = false)) :
    (insertWorld w l).Pairwise (fun a b => worldLess b a = false) := by
  induction l with
  | nil => simp [insertWorld]
  | cons x xs ih =>
      rcases List.pairwise_cons.mp h with ⟨hx, hxs⟩
      simp only [insertWorld]
      by_cases hwx : worldLess w x = true
      · rw [if_pos hwx]
        refine List.pairwise_cons.mpr ⟨?_, h⟩
        intro z hz
        rcases List.mem_cons.mp hz with rfl | hz'
        · exact worldLess_asymm hwx
        · cases hzw : worldLess z w with
          | false => rfl
          | true =>
              have hcontr := worldLess_trans hwx hzw
              simp [hx z hz'] at hcontr
      · have hwx' : worldLess w x = false := by
          cases hb : worldLess w x
          · rfl
          · exact absurd hb hwx
        rw [if_neg hwx]
        refine List.pairwise_cons.mpr ⟨?_, ih hxs⟩
        intro z hz
        rcases List.mem_cons.mp ((perm_insertWorld w xs).mem_iff.mp hz)
          with rfl | hz'
        · exact hwx'
        · exact hx z hz'

/-- The insertion-sort fold keeps the accumulator sorted. -/
theorem pairwise_foldl_insertWorld (l : List World) :
    ∀ acc : List World, acc.Pairwise (fun a b => worldLess b a = false) →
      (l.foldl (fun acc w => insertWorld w acc) acc).Pairwise
        (fun a b => worldLess b a = false) := by
  induction l with
  | nil => intro acc h; simpa
  | cons x xs ih =>
      intro acc h
      exact ih _ (pairwise_insertWorld x acc h)

/-- The embedded sort's output is comparator-sorted. -/
theorem pairwise_sortWorlds (l : List World) :
    (sortWorlds l).Pairwise (fun a b => worldLess b a = false) :=
  pairwise_foldl_insertWorld l [] (by simp)

/-- Claim C6 — counterexample. The claim states the persisted list is
sorted by `updatedAt` descending with ties broken by id ascending,
deterministically. The comparator passed to `sort.Slice` consults only
`LastPlayed`, and `sort.Slice` is documented as not guaranteed stable:
for the two-entry scan of directories "a" and "b" with equal mod times,
the output `[exWorldB, exWorldA]` is an admissible result of the code's
sort, yet it violates the claimed id-ascending tie order — so the
claimed ordering (and with it determinism) is not guaranteed. -/
theorem C6_counterexample :
    sortSliceAdmissible
      ([exEntryA, exEntryB].filterMap
        (processEntry "wd" emptyWorldManifest.worlds.toList))
      [exWorldB, exWorldA] ∧
    ¬ List.Pairwise specSortKey [exWorldB, exWorldA] := by
  constructor
  · constructor
    · decide
    · decide
  · decide

/-- Claim C6 — amended: the list returned (and persisted) by the scan is
a permutation of the scanned entries that is sorted by `LastPlayed`
(`updatedAt`) descending; no id tie-break is applied, so the order of
entries with equal `LastPlayed` is not determined by the comparator. -/
theorem C6_scan_sorted_by_lastPlayed (worldsDir : String)
    (entries : List DirEntry) (manifest : WorldManifest) :
    sortSliceAdmissible
      (entries.filterMap (processEntry worldsDir manifest.worlds.toList))
      ((scanWorlds worldsDir entries manifest).1.toList) := by
  constructor
  · simp only [scanWorlds, toList_toGoSlice]
    exact perm_sortWorlds _
  · simp only [scanWorlds, toList_toGoSlice]
    exact pairwise_sortWorlds _

/-- Witness for `C9_empty_scan` on an empty directory listing. -/
theorem C9_empty_scan_witness :
    (scanWorlds "wd" [] emptyWorldManifest).1.toList = [] ∧
    worldsFieldIsNullJSON (scanWorlds "wd" [] emptyWorldManifest).2.worlds
      = true ∧
    (scanWorlds "wd" [] emptyWorldManifest).2.version =
      emptyWorldManifest.version :=
  C9_empty_scan "wd" [] emptyWorldManifest (by simp)

end HyPrism
